import Mathlib

/-!
Verification of `lms/djangoapps/monitoring/scripts/process_cookie_monitoring_logs.py`.

Python strings are modelled as `List Char`; Python `dict`s (which preserve
insertion order and keep the original position when a key is overwritten) are
modelled as association lists with `setKey`/`lookupKey`; Python `set`s of
strings are modelled as lists with membership; timestamps (values of
`dateutil.parser.parse`) are modelled as natural numbers, with the external
parser passed in as a `String → Option Nat` argument (`none` = the parser
raises).  Python runtime errors (`None.count`, `parse(None)`, unparseable
timestamps) are modelled with `Except`.
-/

namespace CookieLogs

/-! ## Definitions: the shallow embedding of the script -/

/-- Shorthand: the character list of a string literal. -/
def str (s : String) : List Char := s.data

/-- ASCII decimal digit, the `\d` class of the source regexes. -/
def isDigitCh (c : Char) : Bool := '0' ≤ c && c ≤ '9'

/-- The `\w` word class of the source regexes (ASCII range; the names the
script ever matches are ASCII, and the characters the proofs below depend on —
braces, `%`, `@` — are non-word characters in Python as well). -/
def isWordCh (c : Char) : Bool :=
  isDigitCh c || ('a' ≤ c && c ≤ 'z') || ('A' ≤ c && c ≤ 'Z') || c = '_'

/-- The `(\d|-)` class of the `_gac_UA-` rule. -/
def isDigitOrDashCh (c : Char) : Bool := isDigitCh c || c = '-'

/-- Drop a single trailing newline.  Python's `$` anchor (no `re.MULTILINE`)
matches at the end of the string or just before one final newline, so a
pattern of the shape `...X$` accepts `X` or `X ++ "\n"`. -/
def stripNl (l : List Char) : List Char :=
  if l.getLast? = some '\n' then l.dropLast else l

/-- Consume a sequence of single-character patterns (one predicate per regex
character) from the front of the input; return the rest on success.
This is `re.match` semantics for a pattern with no quantifiers. -/
def consume : List (Char → Bool) → List Char → Option (List Char)
  | [], s => some s
  | _ :: _, [] => none
  | p :: ps, c :: cs => if p c then consume ps cs else none

/-- Literal regex characters: each pattern character matches itself, except
`.` which matches any character other than a newline (no `re.DOTALL`). -/
def litOrAny (pc : Char) : Char → Bool :=
  fun c => if pc = '.' then c ≠ '\n' else c = pc

/-- Translate the text of a regex consisting only of literal characters and
`.` wildcards into a predicate list for `consume`. -/
def pat (s : String) : List (Char → Bool) := s.data.map litOrAny

/-- Translate a purely literal regex fragment (no wildcards). -/
def lit (s : String) : List (Char → Bool) := s.data.map (fun pc c => c = pc)

/-- `cls+$`: one or more characters of a class (which excludes `'\n'`),
running to the end of the string (modulo the `$` newline tolerance).
Greedy matching with backtracking reduces to exactly this because the
class cannot match `'\n'` and nothing follows the quantifier but `$`. -/
def classPlusEnd (cls : Char → Bool) (rest : List Char) : Bool :=
  let u := stripNl rest
  !u.isEmpty && u.all cls

/-- `.*$`: accepts exactly the strings with no newline except possibly one
final newline (`.` cannot cross a newline, `$` tolerates one at the end). -/
def dotStarEnd (rest : List Char) : Bool :=
  (stripNl rest).all (· ≠ '\n')

/-- End of pattern at `$`: end of string or one final newline. -/
def endOk (rest : List Char) : Bool := rest.isEmpty || rest == ['\n']

/-- `re.match("_gac_UA-(\d|-)+$", name)` as a Boolean. -/
def matchGacUA (name : List Char) : Bool :=
  match consume (lit "_gac_UA-") name with
  | none => false
  | some rest => classPlusEnd isDigitOrDashCh rest

/-- `re.match("_hjSession_\d+$", name)`. -/
def matchHjSession (name : List Char) : Bool :=
  match consume (lit "_hjSession_") name with
  | none => false
  | some rest => classPlusEnd isDigitCh rest

/-- `re.match("_hjSessionUser_\d+$", name)`. -/
def matchHjSessionUser (name : List Char) : Bool :=
  match consume (lit "_hjSessionUser_") name with
  | none => false
  | some rest => classPlusEnd isDigitCh rest

/-- `re.match("ab.storage.deviceId.*$", name)`; the dots of the pattern are
regex wildcards. -/
def matchAbDeviceId (name : List Char) : Bool :=
  match consume (pat "ab.storage.deviceId") name with
  | none => false
  | some rest => dotStarEnd rest

/-- `re.match("ab.storage.sessionId.*$", name)`. -/
def matchAbSessionId (name : List Char) : Bool :=
  match consume (pat "ab.storage.sessionId") name with
  | none => false
  | some rest => dotStarEnd rest

/-- `re.match("ab.storage.userId.*$", name)`. -/
def matchAbUserId (name : List Char) : Bool :=
  match consume (pat "ab.storage.userId") name with
  | none => false
  | some rest => dotStarEnd rest

/-- `re.match("AMCV_\w+%40AdobeOrg$", name)`.  Since `%` is not a word
character, the greedy `\w+` (with backtracking) matches exactly the maximal
run of word characters, after which the literal tail must follow. -/
def matchAMCV (name : List Char) : Bool :=
  match consume (lit "AMCV_") name with
  | none => false
  | some rest =>
    let u := rest.takeWhile isWordCh
    match consume (lit "%40AdobeOrg") (rest.drop u.length) with
    | none => false
    | some rest2 => !u.isEmpty && endOk rest2

/-- `re.match("amplitude_id_.*$", name)`. -/
def matchAmplitude (name : List Char) : Bool :=
  match consume (lit "amplitude_id_") name with
  | none => false
  | some rest => dotStarEnd rest

/-- `re.match("mp_\w+_mixpanel$", name)`.  The backtracking semantics of
`\w+` followed by the all-word-character literal `_mixpanel` accept exactly
the strings `u ++ "_mixpanel"` (modulo the `$` newline tolerance) with `u` a
nonempty run of word characters; the split is forced by the lengths. -/
def matchMixpanel (name : List Char) : Bool :=
  match consume (lit "mp_") name with
  | none => false
  | some rest =>
    let r := stripNl rest
    let n := r.length
    decide (9 < n) && (r.drop (n - 9) == str "_mixpanel")
      && (r.take (n - 9)).all isWordCh

/-- The `PARAMETERIZED_COOKIES` table applied in declaration order with
first-match-wins, and identity when no rule matches — the unrolled form of
the replacement loop in `process_cookie_headers` (source lines 146–150). -/
def normalizeName (name : List Char) : List Char :=
  if matchGacUA name then str "_gac_UA-{id}"
  else if matchHjSession name then str "_hjSession_{id}"
  else if matchHjSessionUser name then str "_hjSessionUser_{id}"
  else if matchAbDeviceId name then str "ab.storage.deviceId.{id}"
  else if matchAbSessionId name then str "ab.storage.deviceId.{id}"
  else if matchAbUserId name then str "ab.storage.userId.{id}"
  else if matchAMCV name then str "AMCV_{id}@AdobeOrg"
  else if matchAmplitude name then str "amplitude_id_{id}"
  else if matchMixpanel name then str "mp_{id}_mixpanel"
  else name

/-- The literal 19-character prefix `ab.storage.deviceId`. -/
def devPfx : List Char := str "ab.storage.deviceId"

/-- The literal 20-character prefix `ab.storage.sessionId`. -/
def sesPfx : List Char := str "ab.storage.sessionId"

/-- One parsed cookie header log entry, the dict appended in `_load_csv`
(source lines 120–126).  `cookie_sizes` models the Python dict as an
insertion-ordered association list. -/
structure CookieHeaderRecord where
  datetime : Nat
  env : Option String
  cookie_header_size : Nat
  cookie_header_size_computed : Nat
  cookie_sizes : List (List Char × Nat)
deriving DecidableEq

/-- The per-canonical-name aggregate dict built by `process_cookie_headers`
(source lines 152–185).  Every entry in the map has all fields set, so the
dict is modelled as a structure. -/
structure CookieStat where
  count : Nat
  min_size : Nat
  max_size : Nat
  min_full_size : Nat
  max_full_size : Nat
  first_seen : Nat
  envs : List (Option String)
  min_cookie_count : Nat
  max_cookie_count : Nat
  min_header_size : Nat
  max_header_size : Nat
deriving DecidableEq

/-- Dict lookup (`d.get(k)`): first entry with the key. -/
def lookupKey {α : Type} (k : List Char) : List (List Char × α) → Option α
  | [] => none
  | (k2, v) :: rest => if k2 = k then some v else lookupKey k rest

/-- Dict assignment (`d[k] = v`): overwrite in place (keeping the original
position, as Python dicts do) or append a new entry at the end. -/
def setKey {α : Type} (k : List Char) (v : α) : List (List Char × α) → List (List Char × α)
  | [] => [(k, v)]
  | (k2, v2) :: rest => if k2 = k then (k, v) :: rest else (k2, v2) :: setKey k v rest

/-- `set.add` on the `envs` set (modelled as a duplicate-free list). -/
def insertEnv (e : Option String) (l : List (Option String)) : List (Option String) :=
  if e ∈ l then l else l ++ [e]

/-- One iteration of the inner loop body of `process_cookie_headers` (source
lines 152–185), after name normalization: `name` is the (already normalized)
dict key, `old` the existing entry if any.  Each field mirrors one
`processed_cookie.get(..., default)` update of the source; in particular the
full size is `len(name) + size + 2` for the *normalized* `name`, because the
source rebinds the loop variable `name` to the template before line 159. -/
def updateStat (rec : CookieHeaderRecord) (name : List Char) (size : Nat)
    (old : Option CookieStat) : CookieStat :=
  let fullSize := name.length + size + 2
  let cc := rec.cookie_sizes.length
  { count := (match old with | some o => o.count | none => 0) + 1
    min_size := min size (match old with | some o => o.min_size | none => size)
    max_size := max size (match old with | some o => o.max_size | none => 0)
    min_full_size :=
      min fullSize (match old with | some o => o.min_full_size | none => fullSize)
    max_full_size :=
      max fullSize (match old with | some o => o.max_full_size | none => 0)
    first_seen :=
      min rec.datetime (match old with | some o => o.first_seen | none => rec.datetime)
    envs := insertEnv rec.env (match old with | some o => o.envs | none => [])
    min_cookie_count :=
      min cc (match old with | some o => o.min_cookie_count | none => cc)
    max_cookie_count :=
      max cc (match old with | some o => o.max_cookie_count | none => 0)
    min_header_size :=
      min rec.cookie_header_size
        (match old with | some o => o.min_header_size | none => rec.cookie_header_size)
    max_header_size :=
      max rec.cookie_header_size
        (match old with | some o => o.max_header_size | none => 0) }

/-- Process one `(raw_name, size)` pair of a record: normalize the name,
fetch-or-default, update, store back. -/
def processPair (rec : CookieHeaderRecord) (acc : List (List Char × CookieStat))
    (p : List Char × Nat) : List (List Char × CookieStat) :=
  let name := normalizeName p.1
  setKey name (updateStat rec name p.2 (lookupKey name acc)) acc

/-- Process all `(name, size)` pairs of one record, in dict order. -/
def processRecord (acc : List (List Char × CookieStat)) (rec : CookieHeaderRecord) :
    List (List Char × CookieStat) :=
  rec.cookie_sizes.foldl (processPair rec) acc

/-- `process_cookie_headers` (source lines 131–187). -/
def process_cookie_headers (records : List CookieHeaderRecord) :
    List (List Char × CookieStat) :=
  records.foldl processRecord []

/-- A single-occurrence record exercising the full-size computation: the raw
name `_hjSession_123456` (length 17) normalizes to `_hjSession_{id}`
(length 15). -/
def recHj : CookieHeaderRecord :=
  ⟨0, some "prod", 100, 0, [(str "_hjSession_123456", 10)]⟩

/-- Number of `(raw_name, size)` occurrences, across all records, whose
normalized name is `k`. -/
def occurrenceCount (k : List Char) (records : List CookieHeaderRecord) : Nat :=
  (records.map
    (fun r => (r.cookie_sizes.filter (fun p => decide (normalizeName p.1 = k))).length)).sum

/-- Number of header records in which the canonical name `k` appears
post-normalization (the quantity the claim says `count` equals). -/
def recordsWithKey (k : List Char) (records : List CookieHeaderRecord) : Nat :=
  (records.filter
    (fun r => r.cookie_sizes.any (fun p => decide (normalizeName p.1 = k)))).length

/-- The `count` field of the entry for `k`, 0 when absent. -/
def countOf (k : List Char) (m : List (List Char × CookieStat)) : Nat :=
  match lookupKey k m with
  | some s => s.count
  | none => 0

/-- A record in which two *distinct* raw names (`ab.storage.deviceId.x` and
`ab.storage.sessionId.y`) both normalize to `ab.storage.deviceId.{id}`. -/
def recAb : CookieHeaderRecord :=
  ⟨0, some "prod", 50, 0,
    [(str "ab.storage.deviceId.x", 1), (str "ab.storage.sessionId.y", 2)]⟩

/-- A simple one-record batch for witnesses: one cookie `a` of size 5. -/
def recsA : List CookieHeaderRecord := [⟨0, some "prod", 7, 3, [(str "a", 5)]⟩]

/-- The aggregate entry produced for `a` by `recsA`. -/
def statA : CookieStat := ⟨1, 5, 5, 8, 8, 0, [some "prod"], 1, 1, 7, 7⟩

/-- The four min/max orderings the claim requires of every aggregate entry. -/
def StatOk (s : CookieStat) : Prop :=
  s.min_size ≤ s.max_size ∧ s.min_full_size ≤ s.max_full_size ∧
  s.min_cookie_count ≤ s.max_cookie_count ∧ s.min_header_size ≤ s.max_header_size

/-- All entries of the mapping satisfy `StatOk`. -/
def MapOk (m : List (List Char × CookieStat)) : Prop :=
  ∀ k s, lookupKey k m = some s → StatOk s

/-- Stable insertion of one item into a list already in non-increasing
`max_full_size` order: skip the items with a strictly larger key, insert
before the first item whose key is ≤ the new item's key. -/
def insertByDesc (x : List Char × CookieStat) :
    List (List Char × CookieStat) → List (List Char × CookieStat)
  | [] => [x]
  | y :: ys =>
    if y.2.max_full_size ≤ x.2.max_full_size then x :: y :: ys
    else y :: insertByDesc x ys

/-- The sort of source line 194,
`sorted(processed_cookies.items(), key=lambda x: x[1]["max_full_size"], reverse=True)`.
Python's `sorted` is stable, and with `reverse=True` equal-key elements still
keep their original relative order; a stable non-increasing-by-key sort of a
given list is unique, and this insertion sort is that sort (earlier items are
inserted later and placed before equal-key items already present). -/
def sortedCookieItems : List (List Char × CookieStat) → List (List Char × CookieStat)
  | [] => []
  | x :: xs => insertByDesc x (sortedCookieItems xs)

/-- The Python runtime errors the row loop can raise. -/
inductive PyError where
  | attributeError
  | typeError
  | valueError
deriving DecidableEq

/-- Levels of the `logging` calls in `_load_csv`. -/
inductive LogLevel where
  | debug
  | info
  | warning
  | error
deriving DecidableEq

/-- One emitted log line: level and (static) message text. -/
structure Diag where
  level : LogLevel
  message : String
deriving DecidableEq

/-- One CSV row as `csv.DictReader` yields it: `row.get(col)` returns the
column value or `None`.  `raw`, `time`, `index` model the `_raw`, `_time`
and `index` columns. -/
structure CsvRow where
  raw : Option String
  time : Option String
  index : Option String
deriving DecidableEq

instance {ε α : Type} [DecidableEq ε] [DecidableEq α] : DecidableEq (Except ε α) :=
  fun x y =>
    match x, y with
    | .error a, .error b =>
      if h : a = b then isTrue (by rw [h]) else isFalse (by simp [h])
    | .ok a, .ok b =>
      if h : a = b then isTrue (by rw [h]) else isFalse (by simp [h])
    | .error _, .ok _ => isFalse (by simp)
    | .ok _, .error _ => isFalse (by simp)

def beginLit : List Char := str "BEGIN-COOKIE-SIZES"

def totalLit : List Char := str "BEGIN-COOKIE-SIZES(total="

def endLit : List Char := str "END-COOKIE-SIZES"

/-- Scanner for `countBegin`, structurally recursive on a fuel argument so
that it reduces definitionally; each step consumes at least one character,
so any `fuel ≥` the list length gives the true count. -/
def countBeginAux : Nat → List Char → Nat
  | _, [] => 0
  | 0, _ => 0
  | fuel + 1, c :: rest =>
    if beginLit.isPrefixOf (c :: rest) then
      1 + countBeginAux fuel ((c :: rest).drop beginLit.length)
    else countBeginAux fuel rest

/-- `raw_cookie_log.count("BEGIN-COOKIE-SIZES")` (source line 86):
non-overlapping occurrence count, scanning left to right. -/
def countBegin (s : List Char) : Nat := countBeginAux s.length s

/-- Consume a literal from the front of the input (a run of literal regex
characters); return the rest on success. -/
def dropLit (chars : List Char) (s : List Char) : Option (List Char) :=
  if chars.isPrefixOf s then some (s.drop chars.length) else none

/-- `int()` of a digit run. -/
def digitsToNat (ds : List Char) : Nat :=
  ds.foldl (fun acc c => acc * 10 + (c.toNat - '0'.toNat)) 0

/-- Largest `k ≤` the given bound such that `END-COOKIE-SIZES` starts at
offset `k` of `r` — the greedy newline-free `.*` before the end literal. -/
def findEndDown (r : List Char) : Nat → Option Nat
  | 0 => if endLit.isPrefixOf r then some 0 else none
  | k + 1 =>
    if endLit.isPrefixOf (r.drop (k + 1)) then some (k + 1) else findEndDown r k

/-- Anchored match of
`BEGIN-COOKIE-SIZES\(total=(?P<total>\d+)\)(?P<cookie_sizes>.*)END-COOKIE-SIZES`
(source line 75) at the start of `s`: the literal head, a maximal nonempty
digit run (greedy `\d+`; exact since `)` is not a digit), the closing paren,
then the greedy newline-free `.*` up to the last possible occurrence of the
end literal; text after the end literal is unconstrained (no `$`).
Returns `(total, cookie_sizes)`. -/
def matchCookieLogAt (s : List Char) : Option (Nat × List Char) :=
  match dropLit totalLit s with
  | none => none
  | some r1 =>
    let ds := r1.takeWhile isDigitCh
    if ds.isEmpty then none
    else
      match dropLit [')'] (r1.drop ds.length) with
      | none => none
      | some r2 =>
        match findEndDown r2 (r2.takeWhile (· ≠ '\n')).length with
        | none => none
        | some k => some (digitsToNat ds, r2.take k)

/-- `cookie_log_regex.search(raw_cookie_log)` (source line 93): try the
anchored match at each position, leftmost success wins. -/
def searchCookieLog : List Char → Option (Nat × List Char)
  | [] => none
  | c :: rest =>
    match matchCookieLogAt (c :: rest) with
    | some x => some x
    | none => searchCookieLog rest

/-- The fixed part `": "` followed by at least one digit, as required after
the greedy `(?P<name>.*)` of the cookie-size regex (source line 79). -/
def sizeSepAt (r : List Char) : Bool :=
  match r with
  | ':' :: ' ' :: d :: _ => isDigitCh d
  | _ => false

/-- Largest `k ≤` the given bound with `": "` + digit at offset `k` of `f` —
the greedy `(?P<name>.*)`. -/
def findSepDown (f : List Char) : Nat → Option Nat
  | 0 => if sizeSepAt f then some 0 else none
  | k + 1 =>
    if sizeSepAt (f.drop (k + 1)) then some (k + 1) else findSepDown f k

/-- Anchored match of `(?P<name>.*): (?P<size>\d+)` at the start of `f`:
greedy newline-free name up to the last `": "`-plus-digit, then the maximal
digit run as the size. -/
def matchCookieSizeAt (f : List Char) : Option (List Char × Nat) :=
  match findSepDown f (f.takeWhile (· ≠ '\n')).length with
  | none => none
  | some k => some (f.take k, digitsToNat ((f.drop (k + 2)).takeWhile isDigitCh))

/-- `cookie_size_regex.search(cookie_size)` (source line 110). -/
def searchCookieSize : List Char → Option (List Char × Nat)
  | [] => none
  | c :: rest =>
    match matchCookieSizeAt (c :: rest) with
    | some x => some x
    | none => searchCookieSize rest

/-- Python `str.strip()` whitespace. -/
def pyIsSpace (c : Char) : Bool :=
  c = ' ' || c = '\t' || c = '\n' || c = '\r' || c = '\x0b' || c = '\x0c'

/-- Python `s.strip()` (source line 102). -/
def pyStrip (l : List Char) : List Char :=
  ((l.dropWhile pyIsSpace).reverse.dropWhile pyIsSpace).reverse

def sepLit : List Char := str ", "

/-- Scanner for `splitCommaSpace`, structurally recursive on a fuel argument
so that it reduces definitionally; each step consumes at least one character,
so any `fuel ≥` the list length computes the true split (the `0, s` arm is
then unreachable for nonempty `s`). -/
def splitCommaSpaceAux : Nat → List Char → List (List Char)
  | _, [] => [[]]
  | 0, s => [s]
  | fuel + 1, c :: rest =>
    if sepLit.isPrefixOf (c :: rest) then
      [] :: splitCommaSpaceAux fuel (rest.drop 1)
    else
      match splitCommaSpaceAux fuel rest with
      | [] => [[c]]
      | f :: fs => (c :: f) :: fs

/-- Python `s.split(", ")` (source line 108): split at every non-overlapping
occurrence of the separator, keeping empty fragments; splitting the empty
string yields one empty fragment. -/
def splitCommaSpace (s : List Char) : List (List Char) :=
  splitCommaSpaceAux s.length s

/-- Diagnostics emitted by `_load_csv`; line 95 reuses the text of line 91
(as in the source), and the dynamic fragment text of line 112 is elided. -/
def msgNoBegin : Diag := ⟨.info, "No BEGIN-COOKIE-SIZES delimeter found. Skipping row."⟩

def msgMulti : Diag := ⟨.warning, "Multiple cookie entries found in same row. Skipping row."⟩

def msgNoMatch : Diag := ⟨.error, "Multiple cookie entries found in same row. Skipping row."⟩

def msgDup : Diag := ⟨.debug, "Skipping already processed cookies."⟩

def msgBadFragment : Diag := ⟨.error, "Could not parse cookie size from: "⟩

/-- The fragment loop (source lines 109–114): parse each `name: size`
fragment into the dict (later duplicate names overwrite in place), diagnose
and skip fragments the regex does not match. -/
def parseFragments (frags : List (List Char)) :
    List (List Char × Nat) × List Diag :=
  frags.foldl
    (fun acc f =>
      match searchCookieSize f with
      | none => (acc.1, acc.2 ++ [msgBadFragment])
      | some (n, sz) => (setKey n sz acc.1, acc.2))
    ([], [])

/-- Source lines 116–118:
`max(0, sum(len(name) + size + 3 for (name, size) in d.items()) - 2)`. -/
def cookieHeaderSizeComputed (l : List (List Char × Nat)) : Nat :=
  (max 0 ((l.map (fun p => (p.1.length + p.2 + 3 : Int))).sum - 2)).toNat

/-- The body of the row loop of `_load_csv` (source lines 82–126) for one
row.  `parseTime` stands for the external `dateutil.parser.parse` (`none` =
that call raises).  Returns the optional emitted record, the updated
batch-scoped seen-payload set and the emitted diagnostics — or the Python
error the row raises (`None.count` on a missing `_raw`;
`parser.parse(None)`/an unparseable `_time` at record construction).
Note the source's missing `continue` in the zero-marker branch: such a row
falls through to the regex search and also logs the error-level
`msgNoMatch`. -/
def processRow (parseTime : String → Option Nat) (seen : List (List Char))
    (row : CsvRow) :
    Except PyError (Option CookieHeaderRecord × List (List Char) × List Diag) :=
  match row.raw with
  | none => .error .attributeError
  | some rawStr =>
    let s := rawStr.data
    let n := countBegin s
    if 1 < n then .ok (none, seen, [msgMulti])
    else
      let diags0 := if n = 0 then [msgNoBegin] else []
      match searchCookieLog s with
      | none => .ok (none, seen, diags0 ++ [msgNoMatch])
      | some (total, inner) =>
        if total = 0 then .ok (none, seen, diags0)
        else
          let payload := pyStrip inner
          if payload ∈ seen then .ok (none, seen, diags0 ++ [msgDup])
          else
            let parsed := parseFragments (splitCommaSpace payload)
            match row.time with
            | none => .error .typeError
            | some t =>
              match parseTime t with
              | none => .error .valueError
              | some dt =>
                .ok (some ⟨dt, row.index, total,
                           cookieHeaderSizeComputed parsed.1, parsed.1⟩,
                     seen ++ [payload], diags0 ++ parsed.2)

/-- The row loop of `_load_csv`, threading the batch-scoped seen set; a
raised exception aborts the whole load (nothing catches it). -/
def loadCsvRows (parseTime : String → Option Nat) :
    List CsvRow → List (List Char) →
    Except PyError (List CookieHeaderRecord × List (List Char) × List Diag)
  | [], seen => .ok ([], seen, [])
  | row :: rows, seen =>
    match processRow parseTime seen row with
    | .error e => .error e
    | .ok (orec, seen2, d) =>
      match loadCsvRows parseTime rows seen2 with
      | .error e => .error e
      | .ok (recs, seen3, ds) => .ok (orec.toList ++ recs, seen3, d ++ ds)

/-- `_load_csv` (source lines 59–128) restricted to its pure row processing
(the file reading and CSV splitting of lines 69–71 are the excluded I/O
wrapper): process the rows in order, starting from an empty seen set. -/
def loadCsv (parseTime : String → Option Nat) (rows : List CsvRow) :
    Except PyError (List CookieHeaderRecord × List (List Char) × List Diag) :=
  loadCsvRows parseTime rows []

/-- A fixed stand-in for `dateutil.parser.parse` that parses everything. -/
def constTime : String → Option Nat := fun _ => some 0

/-- A well-formed row carrying the cookies `{"a": 1, "bb": 22}`. -/
def rowGood : CsvRow :=
  ⟨some "BEGIN-COOKIE-SIZES(total=50) a: 1, bb: 22 END-COOKIE-SIZES",
   some "t", some "prod"⟩

/-- The record `rowGood` parses to. -/
def recGood : CookieHeaderRecord :=
  ⟨0, some "prod", 50, 30, [(str "a", 1), (str "bb", 22)]⟩

/-- `Except` success as a Boolean. -/
def exceptOk {ε α : Type} : Except ε α → Bool
  | .ok _ => true
  | .error _ => false

/-- The stripped inner payload of a row, defined exactly when the row
reaches the dedup check of source lines 102–106: `_raw` present, not more
than one begin-marker, the full marker pattern matched, nonzero total. -/
def rowPayload (row : CsvRow) : Option (List Char) :=
  match row.raw with
  | none => none
  | some rawStr =>
    if 1 < countBegin rawStr.data then none
    else
      match searchCookieLog rawStr.data with
      | none => none
      | some (total, inner) => if total = 0 then none else some (pyStrip inner)

/-- A valid row with total 5 and payload `a: 1`. -/
def rowTotalFive : CsvRow :=
  ⟨some "BEGIN-COOKIE-SIZES(total=5) a: 1 END-COOKIE-SIZES", some "t", some "e"⟩

/-- The same payload under a zero total: skipped before the dedup set is
updated. -/
def rowTotalZero : CsvRow :=
  ⟨some "BEGIN-COOKIE-SIZES(total=0) a: 1 END-COOKIE-SIZES", some "t", some "e"⟩

/-- The record `rowTotalFive` parses to. -/
def recFive : CookieHeaderRecord := ⟨0, some "e", 5, 3, [(str "a", 1)]⟩

/-- A row whose free-text field contains no `BEGIN-COOKIE-SIZES`. -/
def rowNoMarker : CsvRow := ⟨some "no markers here", some "t", some "prod"⟩

/-! ## Theorems -/

/-- The possible results of one normalization pass: the input itself (no rule
matched) or one of the rule templates. -/
theorem normalizeName_cases (name : List Char) :
    normalizeName name = name ∨
    normalizeName name = str "_gac_UA-{id}" ∨
    normalizeName name = str "_hjSession_{id}" ∨
    normalizeName name = str "_hjSessionUser_{id}" ∨
    normalizeName name = str "ab.storage.deviceId.{id}" ∨
    normalizeName name = str "ab.storage.userId.{id}" ∨
    normalizeName name = str "AMCV_{id}@AdobeOrg" ∨
    normalizeName name = str "amplitude_id_{id}" ∨
    normalizeName name = str "mp_{id}_mixpanel" := by
  unfold normalizeName
  split_ifs <;> simp

/-- C9: the Name Normalizer is idempotent (normalizing a normalized name
returns it unchanged; in particular every template produced by the rule table
normalizes to itself), and the raw name `_hjSession_123456` normalizes to
`_hjSession_{id}`.  Rule order, start-anchored matching, first-match-wins and
identity on no match are the definition of `normalizeName` above, mirroring
the loop over `PARAMETERIZED_COOKIES`. -/
theorem normalizeName_idempotent :
    (∀ name : List Char, normalizeName (normalizeName name) = normalizeName name) ∧
    normalizeName (str "_hjSession_123456") = str "_hjSession_{id}" := by
  refine ⟨fun name => ?_, by decide⟩
  rcases normalizeName_cases name with h | h | h | h | h | h | h | h | h <;> rw [h]
  · exact h
  all_goals decide

/-- C10, counterexample: the raw name `"ab.storage.deviceId\n\n"` begins with
`ab.storage.deviceId`, yet the Name Normalizer leaves it unchanged (the `.*`
of the rule cannot cross the inner newline and `$` does not match), so it is
not mapped to the canonical key `ab.storage.deviceId.{id}`. -/
theorem normalizeName_newline_cex :
    devPfx.isPrefixOf (str "ab.storage.deviceId\n\n") = true ∧
    normalizeName (str "ab.storage.deviceId\n\n") = str "ab.storage.deviceId\n\n" ∧
    str "ab.storage.deviceId\n\n" ≠ str "ab.storage.deviceId.{id}" := by decide

/-- C10, amended: every raw name beginning with `ab.storage.deviceId`, and
every raw name beginning with `ab.storage.sessionId`, *whose remainder
contains no newline except possibly one final newline* (the `.*$` condition),
is mapped to the same canonical key `ab.storage.deviceId.{id}`, merging the
two vendor cookies under one aggregation entry. -/
theorem normalizeName_merges_deviceId_sessionId (rest : List Char)
    (h : dotStarEnd rest = true) :
    normalizeName (devPfx ++ rest) = str "ab.storage.deviceId.{id}" ∧
    normalizeName (sesPfx ++ rest) = str "ab.storage.deviceId.{id}" := by
  have h1 : normalizeName (devPfx ++ rest)
      = if dotStarEnd rest = true then str "ab.storage.deviceId.{id}"
        else devPfx ++ rest := rfl
  have h2 : normalizeName (sesPfx ++ rest)
      = if dotStarEnd rest = true then str "ab.storage.deviceId.{id}"
        else sesPfx ++ rest := rfl
  rw [h1, h2]
  simp [h]

/-- Witness for the amended C10 at the concrete remainder `".abc123"`. -/
theorem normalizeName_merges_witness :
    normalizeName (devPfx ++ str ".abc123") = str "ab.storage.deviceId.{id}" ∧
    normalizeName (sesPfx ++ str ".abc123") = str "ab.storage.deviceId.{id}" :=
  normalizeName_merges_deviceId_sessionId (str ".abc123") (by decide)

theorem lookupKey_setKey {α : Type} (k k0 : List Char) (v : α)
    (m : List (List Char × α)) :
    lookupKey k (setKey k0 v m) = if k0 = k then some v else lookupKey k m := by
  induction m with
  | nil => simp [setKey, lookupKey]
  | cons hd tl ih =>
    obtain ⟨k2, v2⟩ := hd
    by_cases h1 : k2 = k0 <;> by_cases h2 : k2 = k <;> by_cases h3 : k0 = k <;>
      simp_all [setKey, lookupKey]

/-- C1 counterexample: for the occurrence `("_hjSession_123456", 10)` the
aggregator's full size is `len("_hjSession_{id}") + 10 + 2 = 27` — computed
from the *normalized* name, because the source rebinds `name` before
line 159 — and not `len(raw_name) + size + 2 = 17 + 10 + 2 = 29` as the
claim states. -/
theorem full_size_raw_name_cex :
    (lookupKey (str "_hjSession_{id}") (process_cookie_headers [recHj])).map
      (fun s => (s.min_full_size, s.max_full_size)) = some (27, 27) ∧
    (str "_hjSession_123456").length + 10 + 2 = 29 ∧ (27 : Nat) ≠ 29 := by decide

/-- C1 amended: for every occurrence of a `(raw_name, size)` pair, the full
size used to update `min_full_size`/`max_full_size` equals
`len(name) + size + 2` where `name` is the *post-normalization* (canonical)
name of that occurrence, shown here for a record holding one occurrence. -/
theorem full_size_uses_normalized_name (raw : List Char) (size t hs cs : Nat)
    (env : Option String) :
    (lookupKey (normalizeName raw)
      (process_cookie_headers [⟨t, env, hs, cs, [(raw, size)]⟩])).map
      (fun s => (s.min_full_size, s.max_full_size)) =
      some ((normalizeName raw).length + size + 2,
            (normalizeName raw).length + size + 2) := by
  simp [process_cookie_headers, processRecord, processPair, updateStat,
    lookupKey, lookupKey_setKey]

theorem countOf_processPair (k : List Char) (rec : CookieHeaderRecord)
    (acc : List (List Char × CookieStat)) (p : List Char × Nat) :
    countOf k (processPair rec acc p) =
      countOf k acc + (if normalizeName p.1 = k then 1 else 0) := by
  unfold processPair countOf
  rw [lookupKey_setKey]
  by_cases h : normalizeName p.1 = k
  · rw [if_pos h, if_pos h]
    subst h
    rfl
  · rw [if_neg h, if_neg h]
    simp

theorem countOf_foldl_pairs (k : List Char) (rec : CookieHeaderRecord)
    (pairs : List (List Char × Nat)) :
    ∀ acc, countOf k (pairs.foldl (processPair rec) acc) =
      countOf k acc + (pairs.filter (fun p => decide (normalizeName p.1 = k))).length := by
  induction pairs with
  | nil => intro acc; simp
  | cons p ps ih =>
    intro acc
    simp only [List.foldl_cons, List.filter_cons]
    rw [ih, countOf_processPair]
    by_cases h : normalizeName p.1 = k <;> (simp [h]; try omega)

theorem countOf_foldl_records (k : List Char) (records : List CookieHeaderRecord) :
    ∀ acc, countOf k (records.foldl processRecord acc) =
      countOf k acc + occurrenceCount k records := by
  induction records with
  | nil => intro acc; simp [occurrenceCount]
  | cons r rs ih =>
    intro acc
    simp only [List.foldl_cons]
    rw [ih]
    unfold processRecord
    rw [countOf_foldl_pairs]
    simp [occurrenceCount]
    omega

/-- C2 counterexample: after aggregating the single record `recAb`, the entry
for `ab.storage.deviceId.{id}` has `count = 2`, although the name appeared
(post-normalization) in exactly 1 header record — the aggregator increments
once per occurrence, not once per contributing record. -/
theorem count_per_record_cex :
    (lookupKey (str "ab.storage.deviceId.{id}") (process_cookie_headers [recAb])).map
      (fun s => s.count) = some 2 ∧
    recordsWithKey (str "ab.storage.deviceId.{id}") [recAb] = 1 ∧
    (2 : Nat) ≠ 1 := by decide

/-- C2 amended: for every canonical name in the aggregated mapping, `count`
equals the number of `(raw_name, size)` occurrences across all records whose
normalized name equals that canonical name — one increment per occurrence, so
two distinct raw names in the same record normalizing to the same canonical
name contribute 2 — rather than the number of contributing records. -/
theorem count_counts_occurrences (records : List CookieHeaderRecord)
    (k : List Char) (s : CookieStat)
    (h : lookupKey k (process_cookie_headers records) = some s) :
    s.count = occurrenceCount k records := by
  have h2 : countOf k (process_cookie_headers records) = occurrenceCount k records := by
    unfold process_cookie_headers
    rw [countOf_foldl_records]
    simp [countOf, lookupKey]
  rw [← h2]
  simp [countOf, h]

/-- Witness for the amended C2 on the concrete batch `recsA`. -/
theorem count_counts_occurrences_witness :
    statA.count = occurrenceCount (str "a") recsA :=
  count_counts_occurrences recsA (str "a") statA (by decide)

/-- Every update writes an entry whose min bounds are at most the newly
observed value and whose max bounds are at least it. -/
theorem updateStat_ok (rec : CookieHeaderRecord) (name : List Char) (size : Nat)
    (old : Option CookieStat) : StatOk (updateStat rec name size old) := by
  refine ⟨?_, ?_, ?_, ?_⟩ <;>
    exact le_trans (Nat.min_le_left _ _) (Nat.le_max_left _ _)

theorem mapOk_setKey {m : List (List Char × CookieStat)} {k : List Char}
    {v : CookieStat} (hm : MapOk m) (hv : StatOk v) : MapOk (setKey k v m) := by
  intro k2 s hs
  rw [lookupKey_setKey] at hs
  split_ifs at hs with h
  · cases hs
    exact hv
  · exact hm k2 s hs

theorem mapOk_foldl_pairs (rec : CookieHeaderRecord) (pairs : List (List Char × Nat)) :
    ∀ acc, MapOk acc → MapOk (pairs.foldl (processPair rec) acc) := by
  induction pairs with
  | nil => intro acc h; exact h
  | cons p ps ih =>
    intro acc h
    simp only [List.foldl_cons]
    exact ih _ (mapOk_setKey h (updateStat_ok _ _ _ _))

theorem mapOk_foldl_records (records : List CookieHeaderRecord) :
    ∀ acc, MapOk acc → MapOk (records.foldl processRecord acc) := by
  induction records with
  | nil => intro acc h; exact h
  | cons r rs ih =>
    intro acc h
    simp only [List.foldl_cons]
    exact ih _ (mapOk_foldl_pairs r r.cookie_sizes acc h)

/-- C8: after the aggregator processes any sequence of records, every key of
the resulting mapping has `min_size ≤ max_size`,
`min_full_size ≤ max_full_size`, `min_cookie_count ≤ max_cookie_count` and
`min_header_size ≤ max_header_size`. -/
theorem aggregator_bounds_ordered (records : List CookieHeaderRecord)
    (k : List Char) (s : CookieStat)
    (h : lookupKey k (process_cookie_headers records) = some s) :
    s.min_size ≤ s.max_size ∧ s.min_full_size ≤ s.max_full_size ∧
    s.min_cookie_count ≤ s.max_cookie_count ∧
    s.min_header_size ≤ s.max_header_size := by
  refine mapOk_foldl_records records [] ?_ k s h
  intro k2 s2 hs
  simp [lookupKey] at hs

/-- Witness for C8 on the concrete batch `recsA`. -/
theorem aggregator_bounds_witness :
    statA.min_size ≤ statA.max_size ∧ statA.min_full_size ≤ statA.max_full_size ∧
    statA.min_cookie_count ≤ statA.max_cookie_count ∧
    statA.min_header_size ≤ statA.max_header_size :=
  aggregator_bounds_ordered recsA (str "a") statA (by decide)

theorem mem_insertByDesc {z x : List Char × CookieStat}
    {l : List (List Char × CookieStat)} :
    z ∈ insertByDesc x l ↔ z = x ∨ z ∈ l := by
  induction l with
  | nil => simp [insertByDesc]
  | cons y ys ih =>
    simp only [insertByDesc]
    split_ifs with hc
    · simp [List.mem_cons]
      try tauto
    · simp [List.mem_cons, ih]
      try tauto

theorem pairwise_insertByDesc (x : List Char × CookieStat)
    (l : List (List Char × CookieStat))
    (h : l.Pairwise (fun a b => b.2.max_full_size ≤ a.2.max_full_size)) :
    (insertByDesc x l).Pairwise
      (fun a b => b.2.max_full_size ≤ a.2.max_full_size) := by
  induction l with
  | nil => simp [insertByDesc]
  | cons y ys ih =>
    rw [List.pairwise_cons] at h
    obtain ⟨hy, hys⟩ := h
    simp only [insertByDesc]
    split_ifs with hc
    · refine List.Pairwise.cons ?_ (List.Pairwise.cons hy hys)
      intro z hz
      rcases List.mem_cons.mp hz with rfl | hz
      · exact hc
      · exact le_trans (hy z hz) hc
    · refine List.Pairwise.cons ?_ (ih hys)
      intro z hz
      rcases mem_insertByDesc.mp hz with rfl | hz
      · exact le_of_lt (lt_of_not_le hc)
      · exact hy z hz

theorem filter_insertByDesc (K : Nat) (x : List Char × CookieStat)
    (l : List (List Char × CookieStat)) :
    (insertByDesc x l).filter (fun it => decide (it.2.max_full_size = K)) =
      if x.2.max_full_size = K
      then x :: l.filter (fun it => decide (it.2.max_full_size = K))
      else l.filter (fun it => decide (it.2.max_full_size = K)) := by
  induction l with
  | nil =>
    simp only [insertByDesc, List.filter]
    split_ifs with h <;> simp_all
  | cons y ys ih =>
    simp only [insertByDesc]
    by_cases hc : y.2.max_full_size ≤ x.2.max_full_size
    · rw [if_pos hc]
      simp only [List.filter_cons]
      by_cases px : x.2.max_full_size = K <;> by_cases py : y.2.max_full_size = K <;>
        simp [px, py]
    · rw [if_neg hc]
      simp only [List.filter_cons, ih]
      by_cases px : x.2.max_full_size = K <;> by_cases py : y.2.max_full_size = K
      · exfalso; omega
      · simp [px, py]
      · simp [px, py]
      · simp [px, py]

/-- C7: for every aggregated mapping (in its iteration order), the Reporter's
row order — `sortedCookieItems` — is non-increasing in `max_full_size`, and
for every key value the subsequence of rows having that `max_full_size` is
exactly the corresponding subsequence of the input mapping, i.e. the sort is
stable with `max_full_size` as the only key. -/
theorem report_sorted_stable (items : List (List Char × CookieStat)) :
    (sortedCookieItems items).Pairwise
      (fun a b => b.2.max_full_size ≤ a.2.max_full_size) ∧
    ∀ K : Nat,
      (sortedCookieItems items).filter (fun it => decide (it.2.max_full_size = K)) =
        items.filter (fun it => decide (it.2.max_full_size = K)) := by
  constructor
  · induction items with
    | nil => simp [sortedCookieItems]
    | cons x xs ih => exact pairwise_insertByDesc x _ ih
  · intro K
    induction items with
    | nil => simp [sortedCookieItems]
    | cons x xs ih =>
      simp only [sortedCookieItems, List.filter_cons]
      rw [filter_insertByDesc, ih]
      split_ifs with h1 h2 <;> simp_all

/-- C4: every record the Record Parser emits has
`computed_total_size = max(0, Σ (len(name) + size + 3) − 2)` over its parsed
cookies (`cookieHeaderSizeComputed`, the literal formula of source lines
116–118); in particular a record with cookie_sizes `{"a": 1, "bb": 22}` has
`computed_total_size = 30`. -/
theorem computed_total_size_formula :
    (∀ (pt : String → Option Nat) (seen : List (List Char)) (row : CsvRow)
       (rec : CookieHeaderRecord) (seen2 : List (List Char)) (ds : List Diag),
       processRow pt seen row = .ok (some rec, seen2, ds) →
       rec.cookie_header_size_computed = cookieHeaderSizeComputed rec.cookie_sizes) ∧
    cookieHeaderSizeComputed [(str "a", 1), (str "bb", 22)] = 30 := by
  refine ⟨?_, by decide⟩
  intro pt seen row rec seen2 ds h
  unfold processRow at h
  rcases hraw : row.raw with _ | rawStr <;> simp only [hraw] at h
  · simp at h
  · by_cases hn : 1 < countBegin rawStr.data
    · rw [if_pos hn] at h
      simp at h
    · rw [if_neg hn] at h
      rcases hsearch : searchCookieLog rawStr.data with _ | ⟨total, inner⟩ <;>
        simp only [hsearch] at h
      · simp at h
      · by_cases ht0 : total = 0
        · rw [if_pos ht0] at h
          simp at h
        · rw [if_neg ht0] at h
          by_cases hmem : pyStrip inner ∈ seen
          · rw [if_pos hmem] at h
            simp at h
          · rw [if_neg hmem] at h
            rcases htime : row.time with _ | t <;> simp only [htime] at h
            · simp at h
            · rcases hpt : pt t with _ | v <;> simp only [hpt] at h
              · simp at h
              · simp only [Except.ok.injEq, Prod.mk.injEq, Option.some.injEq] at h
                obtain ⟨hrec, -⟩ := h
                subst hrec
                rfl

/-- Witness for C4 on the concrete row `rowGood`. -/
theorem computed_total_size_witness :
    recGood.cookie_header_size_computed = cookieHeaderSizeComputed recGood.cookie_sizes :=
  computed_total_size_formula.1 constTime [] rowGood recGood
    [str "a: 1, bb: 22"] [] (by decide)

/-- C3 counterexample: a row with a missing `_raw` payload field raises
(`AttributeError` from `None.count(...)`), and a row with a missing `_time`
raises (`TypeError` from `parser.parse(None)`) once it reaches record
construction; each raised error propagates out of the whole batch load as a
hard failure — contradicting "never raises ... including rows with an
unparseable or missing timestamp or missing payload field". -/
theorem parser_raises_cex :
    loadCsv constTime [⟨none, some "t", some "prod"⟩] = .error .attributeError ∧
    loadCsv constTime
      [⟨some "BEGIN-COOKIE-SIZES(total=50) a: 1, bb: 22 END-COOKIE-SIZES",
        none, some "prod"⟩] = .error .typeError := by decide

theorem processRow_no_raise (pt : String → Option Nat) (seen : List (List Char))
    (row : CsvRow) (rawStr t : String) (v : Nat)
    (hraw : row.raw = some rawStr) (htime : row.time = some t)
    (hpt : pt t = some v) :
    exceptOk (processRow pt seen row) = true := by
  unfold processRow
  simp only [hraw, htime, hpt]
  by_cases hn : 1 < countBegin rawStr.data
  · rw [if_pos hn]
    rfl
  · rw [if_neg hn]
    rcases hsearch : searchCookieLog rawStr.data with _ | ⟨total, inner⟩ <;>
      simp only [hsearch]
    · rfl
    · by_cases ht0 : total = 0
      · rw [if_pos ht0]
        rfl
      · rw [if_neg ht0]
        by_cases hmem : pyStrip inner ∈ seen
        · rw [if_pos hmem]
          rfl
        · rw [if_neg hmem]
          rfl

theorem loadCsvRows_no_raise (pt : String → Option Nat) (rows : List CsvRow)
    (h : ∀ row ∈ rows,
      (∃ s, row.raw = some s) ∧ ∃ t v, row.time = some t ∧ pt t = some v) :
    ∀ seen, exceptOk (loadCsvRows pt rows seen) = true := by
  induction rows with
  | nil => intro seen; rfl
  | cons r rs ih =>
    intro seen
    obtain ⟨⟨s, hs⟩, t, v, ht, hv⟩ := h r (List.mem_cons_self r rs)
    have h1 := processRow_no_raise pt seen r s t v hs ht hv
    unfold loadCsvRows
    rcases hres : processRow pt seen r with e | out
    · rw [hres] at h1
      simp [exceptOk] at h1
    · obtain ⟨orec, seen2, d⟩ := out
      have h2 := ih (fun row hr => h row (List.mem_cons_of_mem r hr)) seen2
      rcases hres2 : loadCsvRows pt rs seen2 with e2 | out2
      · rw [hres2] at h2
        simp [exceptOk] at h2
      · obtain ⟨recs, seen3, ds⟩ := out2
        simp only [hres, hres2]
        rfl

/-- C3 amended: for every batch of rows whose `_raw` field is present and
whose `_time` field is present and parseable, the Record Parser emits zero or
one record per row (the per-row result is an `Option`) and never raises — the
whole load succeeds, all marker/fragment problems degrading to skip-and-log.
Rows with a missing `_raw`, or with a missing or unparseable `_time` on a row
that reaches record construction, raise instead, and the raised error
propagates out of parsing as a hard failure (see the counterexample). -/
theorem parser_no_raise_wellformed (pt : String → Option Nat) (rows : List CsvRow)
    (h : ∀ row ∈ rows,
      (∃ s, row.raw = some s) ∧ ∃ t v, row.time = some t ∧ pt t = some v) :
    exceptOk (loadCsv pt rows) = true :=
  loadCsvRows_no_raise pt rows h []

/-- Witness for the amended C3 on the concrete batch `[rowGood]`. -/
theorem parser_no_raise_witness : exceptOk (loadCsv constTime [rowGood]) = true :=
  parser_no_raise_wellformed constTime [rowGood] (by
    intro row hr
    simp only [List.mem_singleton] at hr
    subst hr
    exact ⟨⟨_, rfl⟩, "t", 0, rfl, rfl⟩)

theorem processRow_dup_skips (pt : String → Option Nat) (seen : List (List Char))
    (row : CsvRow) (p : List Char)
    (hp : rowPayload row = some p) (hmem : p ∈ seen) :
    ∃ ds, processRow pt seen row = .ok (none, seen, ds) := by
  unfold rowPayload at hp
  unfold processRow
  rcases hraw : row.raw with _ | rawStr <;> simp only [hraw] at hp ⊢
  · cases hp
  · by_cases hn : 1 < countBegin rawStr.data
    · rw [if_pos hn] at hp
      cases hp
    · rw [if_neg hn] at hp
      rw [if_neg hn]
      rcases hsearch : searchCookieLog rawStr.data with _ | ⟨total, inner⟩ <;>
        simp only [hsearch] at hp ⊢
      · cases hp
      · by_cases ht0 : total = 0
        · rw [if_pos ht0] at hp
          cases hp
        · rw [if_neg ht0] at hp
          rw [if_neg ht0]
          injection hp with hpe
          subst hpe
          rw [if_pos hmem]
          exact ⟨_, rfl⟩

theorem processRow_emit_payload (pt : String → Option Nat) (seen : List (List Char))
    (row : CsvRow) (rec : CookieHeaderRecord) (seen2 : List (List Char))
    (d : List Diag)
    (h : processRow pt seen row = .ok (some rec, seen2, d)) :
    ∃ p, rowPayload row = some p ∧ p ∉ seen ∧ seen2 = seen ++ [p] := by
  unfold processRow at h
  unfold rowPayload
  rcases hraw : row.raw with _ | rawStr <;> simp only [hraw] at h ⊢
  · simp at h
  · by_cases hn : 1 < countBegin rawStr.data
    · rw [if_pos hn] at h
      simp at h
    · rw [if_neg hn] at h
      rw [if_neg hn]
      rcases hsearch : searchCookieLog rawStr.data with _ | ⟨total, inner⟩ <;>
        simp only [hsearch] at h ⊢
      · simp at h
      · by_cases ht0 : total = 0
        · rw [if_pos ht0] at h
          simp at h
        · rw [if_neg ht0] at h
          rw [if_neg ht0]
          by_cases hmem : pyStrip inner ∈ seen
          · rw [if_pos hmem] at h
            simp at h
          · rw [if_neg hmem] at h
            rcases htime : row.time with _ | t <;> simp only [htime] at h
            · simp at h
            · rcases hpt : pt t with _ | v <;> simp only [hpt] at h
              · simp at h
              · refine ⟨pyStrip inner, rfl, hmem, ?_⟩
                simp only [Except.ok.injEq, Prod.mk.injEq] at h
                exact h.2.1.symm

theorem loadCsvRows_dups_dropped (pt : String → Option Nat) (p : List Char) :
    ∀ rows : List CsvRow, (∀ row ∈ rows, rowPayload row = some p) →
    ∀ seen, p ∈ seen →
    ∃ ds, loadCsvRows pt rows seen = .ok ([], seen, ds) := by
  intro rows
  induction rows with
  | nil => intro _ seen _; exact ⟨[], rfl⟩
  | cons r rs ih =>
    intro hall seen hmem
    obtain ⟨d0, hd0⟩ :=
      processRow_dup_skips pt seen r p (hall r (List.mem_cons_self r rs)) hmem
    obtain ⟨ds1, hds1⟩ := ih (fun row hr => hall row (List.mem_cons_of_mem r hr)) seen hmem
    refine ⟨d0 ++ ds1, ?_⟩
    unfold loadCsvRows
    simp only [hd0, hds1]
    rfl

/-- C5 counterexample: the two rows carry byte-identical inner cookie-list
payload text `" a: 1 "` (the totals live in the begin marker, outside the
payload), yet the first row (total 0) produces no record — it is skipped
*before* registering its payload in the batch-scoped set — while the later
exact duplicate produces one, refuting "only the first produces a record and
every later exact duplicate is dropped". -/
theorem dedup_first_wins_cex :
    (searchCookieLog (str "BEGIN-COOKIE-SIZES(total=0) a: 1 END-COOKIE-SIZES")).map
      (fun x => x.2) = some (str " a: 1 ") ∧
    (searchCookieLog (str "BEGIN-COOKIE-SIZES(total=5) a: 1 END-COOKIE-SIZES")).map
      (fun x => x.2) = some (str " a: 1 ") ∧
    loadCsv constTime [rowTotalZero] = .ok ([], [], []) ∧
    loadCsv constTime [rowTotalZero, rowTotalFive] =
      .ok ([recFive], [str "a: 1"], []) := by decide

/-- C5 amended: the seen-payload set is batch-scoped and keyed by the
*stripped* payload of rows that pass the earlier checks (single marker,
pattern match, nonzero total — `rowPayload`).  If the first row of a batch
emits a record and every remaining row carries that same payload, the later
duplicates are all dropped and the batch yields exactly that one record; in
particular a batch of 2 identical valid rows yields exactly 1 record. -/
theorem dedup_batch_scoped (pt : String → Option Nat) (r : CsvRow)
    (rows : List CsvRow) (rec : CookieHeaderRecord) (seen1 : List (List Char))
    (d1 : List Diag) (p : List Char)
    (hall : ∀ row ∈ rows, rowPayload row = some p)
    (hr : processRow pt [] r = .ok (some rec, seen1, d1))
    (hp : rowPayload r = some p) :
    ∃ ds, loadCsv pt (r :: rows) = .ok ([rec], [p], ds) := by
  obtain ⟨p2, hp2, hnot, hseen⟩ := processRow_emit_payload pt [] r rec seen1 d1 hr
  rw [hp] at hp2
  injection hp2 with hpe
  subst hpe
  obtain ⟨ds2, hds2⟩ :=
    loadCsvRows_dups_dropped pt p rows hall seen1 (by rw [hseen]; simp)
  refine ⟨d1 ++ ds2, ?_⟩
  unfold loadCsv loadCsvRows
  simp only [hr, hds2]
  rw [hseen]
  simp

/-- Witness for the amended C5: a batch of two identical valid rows yields
exactly one record. -/
theorem dedup_batch_scoped_witness :
    ∃ ds, loadCsv constTime [rowTotalFive, rowTotalFive] =
      .ok ([recFive], [str "a: 1"], ds) :=
  dedup_batch_scoped constTime rowTotalFive [rowTotalFive] recFive
    [str "a: 1"] [] (str "a: 1")
    (by
      intro row hr
      simp only [List.mem_singleton] at hr
      subst hr
      decide)
    (by decide) (by decide)

/-- C6 at the failing input: a row with zero begin-markers yields zero
records, but — because the zero-marker branch of source lines 87–88 lacks a
`continue` although its info message already says "Skipping row." — the row
falls through to the regex search and *also* emits the error-level
diagnostic of line 95, contradicting "discarded as informational, not an
error" (spec §7: "no begin-marker found → skip row, no escalation"). -/
theorem no_marker_zero_records_error_diag :
    loadCsv constTime [rowNoMarker] = .ok ([], [], [msgNoBegin, msgNoMatch]) ∧
    msgNoBegin.level = LogLevel.info ∧
    msgNoMatch.level = LogLevel.error := by decide

end CookieLogs

